import Mathlib

/-!
Shallow embedding of the pi-key firmware (`code.py`): the macro
interpreter `parse_and_type_macro`, the LED effects `color_flash` and
`update_breathe`, and the main polling loop, together with proofs of the
behavioural claims about them.
-/

namespace PiKey

/-- Opening curly brace character. -/
def lb : Char := Char.ofNat 123

/-- Closing curly brace character. -/
def rb : Char := Char.ofNat 125

/-- Plus character, the combo separator of the macro language. -/
def plusC : Char := '+'

/-- One observable emission of the macro interpreter: a `layout.write`
call carrying the written characters, or a `kbd.send` call carrying the
modifier keycodes and the key keycode. -/
inductive Emit where
  | write (s : List Char)
  | send (mods : List Nat) (key : Nat)
  deriving DecidableEq

/-- Python slice `s[a:b]` (for nonnegative bounds) on a list of characters. -/
def slice (s : List Char) (a b : Nat) : List Char := (s.take b).drop a

/-- Worker for `str.find`: absolute index of the first closing brace,
scanning a suffix whose first element has absolute index `j`. -/
def findCloseAux : List Char → Nat → Option Nat
  | [], _ => none
  | c :: cs, j => if c = rb then some j else findCloseAux cs (j + 1)

/-- Python `macro_string.find(closing_brace, i)`, with −1 rendered as `none`. -/
def findClose (s : List Char) (i : Nat) : Option Nat := findCloseAux (s.drop i) i

/-- Whitespace characters removed by Python `str.strip()`. -/
def isPySpace (c : Char) : Bool :=
  c = ' ' || c = '\t' || c = '\n' || c = '\r' || c = Char.ofNat 11 || c = Char.ofNat 12

/-- Python `str.strip()`. -/
def pyStrip (s : List Char) : List Char :=
  ((s.dropWhile isPySpace).reverse.dropWhile isPySpace).reverse

/-- Python `str.upper()` (the macro syntax only ever uses the ASCII range). -/
def upChars (s : List Char) : List Char := s.map Char.toUpper

/-- Worker for Python `str.split` on the plus sign, with an accumulator for
the current (reversed) fragment. -/
def splitPlusAux : List Char → List Char → List (List Char)
  | [], acc => [acc.reverse]
  | c :: cs, acc =>
    if c = plusC then acc.reverse :: splitPlusAux cs [] else splitPlusAux cs (c :: acc)

/-- Python `key_seq.split` on the plus sign. -/
def splitPlus (s : List Char) : List (List Char) := splitPlusAux s []

/-- The `SPECIAL_KEYS` table of `code.py`: `KEY` names to HID keycodes. -/
def specialKeys (p : List Char) : Option Nat :=
  if p = "ENTER".toList then some 40
  else if p = "TAB".toList then some 43
  else if p = "SPACE".toList then some 44
  else if p = "BACKSPACE".toList then some 42
  else if p = "DELETE".toList then some 76
  else if p = "ESC".toList then some 41
  else if p = "UP".toList then some 82
  else if p = "DOWN".toList then some 81
  else if p = "LEFT".toList then some 80
  else if p = "RIGHT".toList then some 79
  else if p = "HOME".toList then some 74
  else if p = "END".toList then some 77
  else if p = "PAGEUP".toList then some 75
  else if p = "PAGEDOWN".toList then some 78
  else none

/-- The `MODIFIERS` table of `code.py`: modifier names to HID keycodes. -/
def modifierKeys (p : List Char) : Option Nat :=
  if p = "CTRL".toList then some 224
  else if p = "SHIFT".toList then some 225
  else if p = "ALT".toList then some 226
  else if p = "GUI".toList then some 227
  else if p = "WIN".toList then some 227
  else if p = "CMD".toList then some 227
  else none

/-- Python `getattr(Keycode, part, None)` for a single already upper-cased
character: only the letter keycodes `A`..`Z` (HID 4..29) exist as
single-character attributes of `Keycode`. -/
def keycodeAttr (c : Char) : Option Nat :=
  if 'A' ≤ c ∧ c ≤ 'Z' then some (c.toNat - 61) else none

/-- One iteration of the `for part in parts` loop of the combo branch:
accumulate modifier codes, remember the most recently resolved key
(a failed single-character lookup clobbers it with `none`, as in the source). -/
def comboStep (acc : List Nat × Option Nat) (part0 : List Char) : List Nat × Option Nat :=
  let part := pyStrip part0
  match modifierKeys part with
  | some m => (acc.1 ++ [m], acc.2)
  | none =>
    match specialKeys part with
    | some k => (acc.1, some k)
    | none =>
      match part with
      | [c] => (acc.1, keycodeAttr c)
      | _ => acc

/-- The whole `for part in parts` loop of the combo branch. -/
def comboScan (parts : List (List Char)) : List Nat × Option Nat :=
  parts.foldl comboStep ([], none)

/-- Emissions of the brace-expression branch of `parse_and_type_macro`,
once a closing brace has been found at index `close`. -/
def braceEmit (s : List Char) (i close : Nat) : List Emit :=
  let keySeq := upChars (slice s (i + 1) close)
  if keySeq.contains plusC then
    let scan := comboScan (splitPlus keySeq)
    match scan.2 with
    | some k => if scan.1 ≠ [] then [Emit.send scan.1 k] else [Emit.send [] k]
    | none => [Emit.write (slice s i (close + 1))]
  else
    match specialKeys keySeq with
    | some k => [Emit.send [] k]
    | none => [Emit.write (slice s i (close + 1))]

/-- One iteration of the scanning loop of `parse_and_type_macro`: from scan
index `i`, the next value of `i` together with the emissions of this
iteration, branch for branch after the source. -/
def macroNext (s : List Char) (i : Nat) : Nat × List Emit :=
  if i + 1 < s.length ∧ s[i]? = some lb ∧ s[i + 1]? = some lb then
    (i + 2, [Emit.write [lb]])
  else if i + 1 < s.length ∧ s[i]? = some rb ∧ s[i + 1]? = some rb then
    (i + 2, [Emit.write [rb]])
  else if s[i]? = some lb then
    match findClose s i with
    | none => (i + 1, [Emit.write [lb]])
    | some close => (close + 1, braceEmit s i close)
  else
    (i + 1, [Emit.write (slice s i (i + 1))])

/-- The scanning loop of `parse_and_type_macro` with an explicit iteration
budget; since every iteration strictly advances the index
(`macroNext_advances`), a budget of `s.length` iterations is always enough. -/
def playGo : Nat → List Char → Nat → List Emit
  | 0, _, _ => []
  | fuel + 1, s, i =>
    if i < s.length then (macroNext s i).2 ++ playGo fuel s (macroNext s i).1 else []

/-- All emissions of `parse_and_type_macro` on a macro string. -/
def playChars (s : List Char) : List Emit := playGo s.length s 0

/-- Does one stripped combo part fail to resolve as a modifier, as a
special key, and as a single-character keycode? -/
def partFails (p : List Char) : Bool :=
  (modifierKeys (pyStrip p)).isNone && (specialKeys (pyStrip p)).isNone &&
    (match pyStrip p with | [c] => (keycodeAttr c).isNone | _ => true)

/-- Does a brace expression body resolve to neither a special key nor a
modifier-plus-key combination?  In the combo case this is the condition of
the claim: every part fails as a modifier, as a special key, and as a
single-character keycode. -/
def resolvesNone (ks : List Char) : Bool :=
  if ks.contains plusC then (splitPlus ks).all partFails
  else (specialKeys ks).isNone

/-- Example macro text for the unknown-token claim. -/
def exNope : List Char := [lb, 'N', 'O', 'P', 'E', rb]

/-- Example macro text for the all-parts-fail combo claim. -/
def exCombo : List Char := [lb, 'F', 'O', 'O', '+', 'B', 'A', 'R', rb]

/-- Color triple in the device's native GRB channel order. -/
abbrev GRB := Nat × Nat × Nat

/-- Python `int()` applied to the nonnegative real products of `code.py`
(truncation toward zero, which is the floor for nonnegative values). -/
def pyInt (q : ℚ) : Nat := (⌊q⌋).toNat

/-- A color scaled by a brightness factor, channel by channel, each channel
truncated with `int()` as in the source. -/
def scaleColor (c : GRB) (f : ℚ) : GRB :=
  (pyInt ((c.1 : ℚ) * f), pyInt ((c.2.1 : ℚ) * f), pyInt ((c.2.2 : ℚ) * f))

/-- One observable action of the main loop and of the LED routines:
console prints, LED fills/shows, sleeps, `parse_and_type_macro` playback
calls, and the two blocking feedback animations. -/
inductive KAct where
  | logPressed
  | logReleased (dur : ℚ)
  | logExitKeepAlive
  | logLongPress
  | logDoublePress
  | ledFill (c : GRB)
  | ledShow
  | sleepA (d : ℚ)
  | play (s : List Char)
  | flash (c : GRB)
  | pulse (c : GRB)
  deriving DecidableEq

/-- One step of the two ramp loops of `color_flash`: fill with the scaled
color, show, sleep 0.025 s. -/
def flashStep (c : GRB) (br : ℚ) : List KAct :=
  [KAct.ledFill (scaleColor c br), KAct.ledShow, KAct.sleepA (1 / 40)]

/-- Brightness scales of the ramp-up loop of `color_flash`:
`for i in range(steps)` with `brightness = (i / steps) * max_bright`. -/
def flashLevels : List ℚ := (List.range 20).map fun (i : Nat) => ((i : ℚ) / 20) * (4 / 5)

/-- Brightness scales of the ramp-down loop of `color_flash`:
`for i in range(steps, -1, -1)`, that is `i = 20, 19, ..., 0`. -/
def flashLevelsDown : List ℚ :=
  (List.range 21).map fun (i : Nat) => (((20 - i : Nat) : ℚ) / 20) * (4 / 5)

/-- The whole action sequence of `color_flash`: ramp up, ramp down, off. -/
def colorFlash (c : GRB) : List KAct :=
  (flashLevels.map (flashStep c)).flatten ++ (flashLevelsDown.map (flashStep c)).flatten ++
    [KAct.ledFill (0, 0, 0), KAct.ledShow]

/-- State update of `update_breathe`: brightness moves by `direction * 2`,
clamped at 127 (flipping direction to −1) and at 0 (flipping to +1). -/
def breatheNext (p : ℤ × ℤ) : ℤ × ℤ :=
  let b := p.1 + p.2 * 2
  if b ≥ 127 then (127, -1) else if b ≤ 0 then (0, 1) else (b, p.2)

/-- Breathe state after `n` calls of `update_breathe` from the startup
state `breathe_brightness = 0`, `breathe_direction = 1`. -/
def breatheIter : Nat → ℤ × ℤ
  | 0 => (0, 1)
  | n + 1 => breatheNext (breatheIter n)

/-- Invariant of the breathe state: brightness within [0,127], direction
±1, and brightness parity tied to direction (even going up, odd going
down). -/
def breatheInv (p : ℤ × ℤ) : Prop :=
  0 ≤ p.1 ∧ p.1 ≤ 127 ∧ ((p.2 = 1 ∧ p.1 % 2 = 0) ∨ (p.2 = -1 ∧ p.1 % 2 = 1))

/-- The mutable state of the main loop of `code.py`. -/
@[ext]
structure KState where
  lastButtonState : Bool
  pressStartTime : ℚ
  clickCount : Nat
  lastClickTime : ℚ
  keepAliveActive : Bool
  lastKeepAliveTime : ℚ
  nextKeepAliveDelay : ℚ
  breatheB : ℤ
  breatheD : ℤ
  deriving DecidableEq

/-- The configuration record consumed by the loop, immutable for the run. -/
structure Config where
  doublePressGap : ℚ
  longPressDuration : ℚ
  keepAliveMin : ℚ
  keepAliveMax : ℚ
  macroColor : GRB
  keepaliveColor : GRB
  cancelColor : GRB
  macroText : List Char
  keepaliveText : List Char
  deriving DecidableEq

/-- One tick's inputs: the `time.monotonic()` reading, the button level
(active-low, `true` = released), and the two `random.uniform` draws the
tick would consume if it activates keep-alive or fires it. -/
structure TickIn where
  now : ℚ
  btn : Bool
  r1 : ℚ
  r2 : ℚ
  deriving DecidableEq

/-- Block `update_breathe(KEEPALIVE_COLOR) if keep_alive_active` at the top
of the loop body. -/
def breathePhase (cfg : Config) (s : KState) : KState × List KAct :=
  if s.keepAliveActive then
    let p := breatheNext (s.breatheB, s.breatheD)
    ({ s with breatheB := p.1, breatheD := p.2 },
     [KAct.ledFill (scaleColor cfg.keepaliveColor ((p.1 : ℚ) / 255)), KAct.ledShow])
  else (s, [])

/-- Block `if button_reading != last_button_state` of the loop body:
edge detection, keep-alive cancel, click counting, release logging. -/
def gesturePhase (cfg : Config) (s : KState) (now : ℚ) (b : Bool) : KState × List KAct :=
  if b ≠ s.lastButtonState then
    let s1 := { s with lastButtonState := b }
    if b = false then
      let s2 := { s1 with pressStartTime := now }
      if s2.keepAliveActive then
        ({ s2 with keepAliveActive := false },
         [KAct.logPressed, KAct.logExitKeepAlive, KAct.pulse cfg.cancelColor,
          KAct.ledFill (0, 0, 0), KAct.ledShow])
      else
        ({ s2 with clickCount := s2.clickCount + 1, lastClickTime := now }, [KAct.logPressed])
    else
      (s1, [KAct.logReleased (now - s1.pressStartTime)])
  else (s, [])

/-- Block `Long press detection` of the loop body. -/
def longPhase (cfg : Config) (s : KState) (now : ℚ) (b : Bool) (r1 : ℚ) : KState × List KAct :=
  if b = false ∧ s.keepAliveActive = false ∧ s.pressStartTime > 0 ∧
      now - s.pressStartTime ≥ cfg.longPressDuration then
    ({ s with keepAliveActive := true, lastKeepAliveTime := now,
              nextKeepAliveDelay := r1, clickCount := 0, pressStartTime := 0 },
     [KAct.logLongPress])
  else (s, [])

/-- Block `Double-press detection` of the loop body. -/
def doublePhase (cfg : Config) (s : KState) (now : ℚ) : KState × List KAct :=
  if 0 < s.clickCount ∧ now - s.lastClickTime > cfg.doublePressGap then
    if s.clickCount = 2 ∧ s.keepAliveActive = false then
      ({ s with clickCount := 0 },
       [KAct.logDoublePress, KAct.play cfg.macroText, KAct.flash cfg.macroColor])
    else ({ s with clickCount := 0 }, [])
  else (s, [])

/-- Block `Keep-alive: send keystrokes at random intervals` of the loop body. -/
def kaPhase (cfg : Config) (s : KState) (now : ℚ) (r2 : ℚ) : KState × List KAct :=
  if s.keepAliveActive = true ∧ now - s.lastKeepAliveTime > s.nextKeepAliveDelay then
    ({ s with lastKeepAliveTime := now, nextKeepAliveDelay := r2 },
     [KAct.play cfg.keepaliveText])
  else (s, [])

/-- One full iteration of the `while True` loop, blocks in source order,
ending with `time.sleep(0.01)`. -/
def tick (cfg : Config) (s : KState) (x : TickIn) : KState × List KAct :=
  let p1 := breathePhase cfg s
  let p2 := gesturePhase cfg p1.1 x.now x.btn
  let p3 := longPhase cfg p2.1 x.now x.btn x.r1
  let p4 := doublePhase cfg p3.1 x.now
  let p5 := kaPhase cfg p4.1 x.now x.r2
  (p5.1, p1.2 ++ p2.2 ++ p3.2 ++ p4.2 ++ p5.2 ++ [KAct.sleepA (1 / 100)])

/-- A run of the loop over a list of tick inputs. -/
def run (cfg : Config) : KState → List TickIn → KState × List KAct
  | s, [] => (s, [])
  | s, x :: xs =>
    let p := tick cfg s x
    let q := run cfg p.1 xs
    (q.1, p.2 ++ q.2)

/-- The startup values of the loop state variables in `code.py`. -/
def initState : KState where
  lastButtonState := true
  pressStartTime := 0
  clickCount := 0
  lastClickTime := 0
  keepAliveActive := false
  lastKeepAliveTime := 0
  nextKeepAliveDelay := 0
  breatheB := 0
  breatheD := 1

/-- The default configuration values of `code.py` (braces of the default
keep-alive text spelled as characters). -/
def cfgDefault : Config where
  doublePressGap := 1 / 2
  longPressDuration := 1
  keepAliveMin := 4 / 5
  keepAliveMax := 2
  macroColor := (0, 128, 128)
  keepaliveColor := (191, 255, 0)
  cancelColor := (0, 255, 0)
  macroText := "fallback-text".toList
  keepaliveText :=
    lb :: "SPACE".toList ++ [rb, lb] ++ "LEFT_ARROW".toList ++ [rb]

/-- Is an action a `parse_and_type_macro` playback call? -/
def isPlay : KAct → Bool
  | KAct.play _ => true
  | _ => false

/-- Is an action the long-press activation log line? -/
def isLongLog : KAct → Bool
  | KAct.logLongPress => true
  | _ => false

/-- Number of macro playback calls in a trace. -/
def countPlay (l : List KAct) : Nat := l.countP isPlay

/-- Number of long-press activations in a trace. -/
def countLong (l : List KAct) : Nat := l.countP isLongLog

/-- Does a list of tick inputs contain no press edge, the previous level
being `prev`? -/
def noPressEdge : Bool → List TickIn → Bool
  | _, [] => true
  | prev, x :: xs => (!(prev && !x.btn)) && noPressEdge x.btn xs

/-- The button level after feeding a list of inputs, starting from `d`. -/
def lastLevel (l : List TickIn) (d : Bool) : Bool := l.foldl (fun _ x => x.btn) d

/-- Number of press edges in a list of tick inputs, the previous level
being `prev`. -/
def countPressEdges : Bool → List TickIn → Nat
  | _, [] => 0
  | prev, x :: xs => (if prev && !x.btn then 1 else 0) + countPressEdges x.btn xs

/-- Loop state with keep-alive active and breathe at its startup value,
for the cancel-tick examples. -/
def exKaState : KState where
  lastButtonState := true
  pressStartTime := 0
  clickCount := 0
  lastClickTime := 0
  keepAliveActive := true
  lastKeepAliveTime := 10
  nextKeepAliveDelay := 5
  breatheB := 0
  breatheD := 1

/-- A press-edge input at time 10 with zero random draws. -/
def exCancelIn : TickIn where
  now := 10
  btn := false
  r1 := 0
  r2 := 0

/-- Three rapid presses (with intervening releases), every press within the
default double-press gap of the previous click. -/
def exTriple : List TickIn :=
  [⟨1, false, 0, 0⟩, ⟨11 / 10, true, 0, 0⟩, ⟨6 / 5, false, 0, 0⟩,
   ⟨13 / 10, true, 0, 0⟩, ⟨7 / 5, false, 0, 0⟩]

/-- Loop state pending a double click (two clicks counted, last click at
time 0), outside keep-alive. -/
def exFireState : KState where
  lastButtonState := true
  pressStartTime := 0
  clickCount := 2
  lastClickTime := 0
  keepAliveActive := false
  lastKeepAliveTime := 0
  nextKeepAliveDelay := 0
  breatheB := 0
  breatheD := 1

/-- A released-button input at time 1, past the default double-press gap. -/
def exFireIn : TickIn where
  now := 1
  btn := true
  r1 := 0
  r2 := 0

theorem findCloseAux_bounds :
    ∀ (l : List Char) (j k : Nat), findCloseAux l j = some k → j ≤ k ∧ k < j + l.length := by
  intro l
  induction l with
  | nil => intro j k h; simp [findCloseAux] at h
  | cons c cs ih =>
    intro j k h
    by_cases hc : c = rb
    · simp [findCloseAux, hc] at h
      simp only [List.length_cons]
      omega
    · simp [findCloseAux, hc] at h
      have := ih (j + 1) k h
      simp only [List.length_cons]
      omega

theorem findClose_bounds {s : List Char} {i j : Nat} (h : findClose s i = some j) :
    i ≤ j ∧ j < s.length := by
  have hb := findCloseAux_bounds (s.drop i) i j h
  rw [List.length_drop] at hb
  by_cases hi : i ≤ s.length
  · omega
  · exfalso
    have hnil : s.drop i = [] := List.drop_eq_nil_of_le (by omega)
    rw [findClose, hnil] at h
    simp [findCloseAux] at h

theorem macroNext_esc_lb {s : List Char} {i : Nat}
    (h : i + 1 < s.length ∧ s[i]? = some lb ∧ s[i + 1]? = some lb) :
    macroNext s i = (i + 2, [Emit.write [lb]]) := by
  unfold macroNext
  rw [if_pos h]

theorem macroNext_esc_rb {s : List Char} {i : Nat}
    (h1 : ¬(i + 1 < s.length ∧ s[i]? = some lb ∧ s[i + 1]? = some lb))
    (h : i + 1 < s.length ∧ s[i]? = some rb ∧ s[i + 1]? = some rb) :
    macroNext s i = (i + 2, [Emit.write [rb]]) := by
  unfold macroNext
  rw [if_neg h1, if_pos h]

theorem macroNext_brace_none {s : List Char} {i : Nat}
    (h2 : s[i + 1]? ≠ some lb) (h3 : s[i]? = some lb)
    (hfc : findClose s i = none) :
    macroNext s i = (i + 1, [Emit.write [lb]]) := by
  unfold macroNext
  rw [if_neg, if_neg, if_pos h3, hfc]
  · rintro ⟨-, hrb, -⟩
    rw [h3] at hrb
    exact (by decide : lb ≠ rb) (Option.some.inj hrb)
  · rintro ⟨-, -, hlb2⟩
    exact h2 hlb2

theorem macroNext_brace_some {s : List Char} {i j : Nat}
    (h2 : s[i + 1]? ≠ some lb) (h3 : s[i]? = some lb)
    (hfc : findClose s i = some j) :
    macroNext s i = (j + 1, braceEmit s i j) := by
  unfold macroNext
  rw [if_neg, if_neg, if_pos h3, hfc]
  · rintro ⟨-, hrb, -⟩
    rw [h3] at hrb
    exact (by decide : lb ≠ rb) (Option.some.inj hrb)
  · rintro ⟨-, -, hlb2⟩
    exact h2 hlb2

theorem macroNext_plain {s : List Char} {i : Nat}
    (h1 : ¬(i + 1 < s.length ∧ s[i]? = some lb ∧ s[i + 1]? = some lb))
    (h2 : ¬(i + 1 < s.length ∧ s[i]? = some rb ∧ s[i + 1]? = some rb))
    (h3 : s[i]? ≠ some lb) :
    macroNext s i = (i + 1, [Emit.write (slice s i (i + 1))]) := by
  unfold macroNext
  rw [if_neg h1, if_neg h2, if_neg h3]

theorem macroNext_lt {s : List Char} {i : Nat} (h : i < s.length) :
    i < (macroNext s i).1 ∧ (macroNext s i).1 ≤ s.length := by
  by_cases h1 : i + 1 < s.length ∧ s[i]? = some lb ∧ s[i + 1]? = some lb
  · rw [macroNext_esc_lb h1]
    exact ⟨by omega, by omega⟩
  · by_cases h2 : i + 1 < s.length ∧ s[i]? = some rb ∧ s[i + 1]? = some rb
    · rw [macroNext_esc_rb h1 h2]
      exact ⟨by omega, by omega⟩
    · by_cases h3 : s[i]? = some lb
      · have h2' : s[i + 1]? ≠ some lb := by
          intro hlb2
          have hlt : i + 1 < s.length := by
            by_contra hge
            rw [List.getElem?_eq_none (by omega)] at hlb2
            exact Option.noConfusion hlb2
          exact h1 ⟨hlt, h3, hlb2⟩
        cases hfc : findClose s i with
        | none =>
          rw [macroNext_brace_none h2' h3 hfc]
          exact ⟨by omega, by omega⟩
        | some j =>
          have hb := findClose_bounds hfc
          rw [macroNext_brace_some h2' h3 hfc]
          exact ⟨by omega, by omega⟩
      · rw [macroNext_plain h1 h2 h3]
        exact ⟨by omega, by omega⟩

theorem playGo_congr :
    ∀ (f1 f2 : Nat) (s : List Char) (i : Nat),
      s.length ≤ i + f1 → s.length ≤ i + f2 → playGo f1 s i = playGo f2 s i := by
  intro f1
  induction f1 with
  | zero =>
    intro f2 s i hf1 hf2
    cases f2 with
    | zero => rfl
    | succ f2 =>
      simp only [playGo]
      rw [if_neg (by omega)]
  | succ f1 ih =>
    intro f2 s i hf1 hf2
    cases f2 with
    | zero =>
      simp only [playGo]
      rw [if_neg (by omega)]
    | succ f2 =>
      simp only [playGo]
      by_cases hi : i < s.length
      · rw [if_pos hi, if_pos hi]
        have hadv := @macroNext_lt s i hi
        rw [ih f2 s (macroNext s i).1 (by omega) (by omega)]
      · rw [if_neg hi, if_neg hi]

theorem comboStep_fails {p : List Char} {ms : List Nat} (h : partFails p = true) :
    comboStep (ms, none) p = (ms, none) := by
  simp only [partFails, Bool.and_eq_true] at h
  obtain ⟨⟨hm, hs⟩, hk⟩ := h
  rw [Option.isNone_iff_eq_none] at hm hs
  simp only [comboStep, hm, hs]
  cases hq : pyStrip p with
  | nil => simp
  | cons c cs =>
    cases cs with
    | nil =>
      rw [hq] at hk
      simp only [Option.isNone_iff_eq_none] at hk
      simp [hk]
    | cons c2 cs2 => simp

theorem comboFold_none (parts : List (List Char)) (h : parts.all partFails = true) :
    ∀ ms : List Nat, (parts.foldl comboStep (ms, none)).2 = none := by
  induction parts with
  | nil => intro ms; rfl
  | cons p ps ih =>
    rw [List.all_cons, Bool.and_eq_true] at h
    intro ms
    rw [List.foldl_cons, comboStep_fails h.1]
    exact ih h.2 ms

theorem braceEmit_unresolved {s : List Char} {i j : Nat}
    (h : resolvesNone (upChars (slice s (i + 1) j)) = true) :
    braceEmit s i j = [Emit.write (slice s i (j + 1))] := by
  unfold braceEmit resolvesNone at *
  by_cases hp : (upChars (slice s (i + 1) j)).contains plusC
  · rw [if_pos hp] at h ⊢
    have := comboFold_none (splitPlus (upChars (slice s (i + 1) j))) h []
    simp only [comboScan]
    rw [this]
  · rw [if_neg hp] at h ⊢
    rw [Option.isNone_iff_eq_none] at h
    rw [h]

/-- Claim C1: the scanning loop of `parse_and_type_macro` strictly advances
its index on every branch and never moves it past the end of the string, so
the scan terminates after at most `s.length` iterations, every branch
producing ordinary output (the total function `macroNext` has no error
case): escaped double braces advance by 2, an unterminated opening brace
advances by 1, a found closing brace advances to just past it, and a plain
character advances by 1. -/
theorem scan_advances (s : List Char) (i : Nat) (h : i < s.length) :
    i < (macroNext s i).1 ∧ (macroNext s i).1 ≤ s.length ∧
    (((i + 1 < s.length ∧ s[i]? = some lb ∧ s[i + 1]? = some lb) ∨
      (i + 1 < s.length ∧ s[i]? = some rb ∧ s[i + 1]? = some rb)) →
        (macroNext s i).1 = i + 2) ∧
    (¬(i + 1 < s.length ∧ s[i]? = some lb ∧ s[i + 1]? = some lb) →
      s[i]? = some lb → findClose s i = none → (macroNext s i).1 = i + 1) ∧
    (¬(i + 1 < s.length ∧ s[i]? = some lb ∧ s[i + 1]? = some lb) →
      s[i]? = some lb → ∀ j, findClose s i = some j → (macroNext s i).1 = j + 1 ∧ i ≤ j) ∧
    (¬(i + 1 < s.length ∧ s[i]? = some lb ∧ s[i + 1]? = some lb) →
     ¬(i + 1 < s.length ∧ s[i]? = some rb ∧ s[i + 1]? = some rb) →
      s[i]? ≠ some lb → (macroNext s i).1 = i + 1) := by
  refine ⟨(macroNext_lt h).1, (macroNext_lt h).2, ?_, ?_, ?_, ?_⟩
  · rintro (h1 | h2)
    · rw [macroNext_esc_lb h1]
    · by_cases h1 : i + 1 < s.length ∧ s[i]? = some lb ∧ s[i + 1]? = some lb
      · obtain ⟨-, hlb, -⟩ := h1
        obtain ⟨-, hrb, -⟩ := h2
        rw [hlb] at hrb
        exact absurd (Option.some.inj hrb) (by decide)
      · rw [macroNext_esc_rb h1 h2]
  · intro h1 h3 hfc
    have h2' : s[i + 1]? ≠ some lb := fun hlb2 => by
      have hlt : i + 1 < s.length := by
        by_contra hge
        rw [List.getElem?_eq_none (by omega)] at hlb2
        exact Option.noConfusion hlb2
      exact h1 ⟨hlt, h3, hlb2⟩
    rw [macroNext_brace_none h2' h3 hfc]
  · intro h1 h3 j hfc
    have h2' : s[i + 1]? ≠ some lb := fun hlb2 => by
      have hlt : i + 1 < s.length := by
        by_contra hge
        rw [List.getElem?_eq_none (by omega)] at hlb2
        exact Option.noConfusion hlb2
      exact h1 ⟨hlt, h3, hlb2⟩
    rw [macroNext_brace_some h2' h3 hfc]
    exact ⟨rfl, (findClose_bounds hfc).1⟩
  · intro h1 h2 h3
    rw [macroNext_plain h1 h2 h3]

/-- Witness for C1 at the concrete input of the unknown-token example. -/
theorem scan_advances_witness :
    0 < (macroNext exNope 0).1 ∧ (macroNext exNope 0).1 ≤ exNope.length :=
  ⟨(scan_advances exNope 0 (by decide)).1, (scan_advances exNope 0 (by decide)).2.1⟩

/-- Claim C8: a brace expression that resolves to neither a special key nor
a modifier-plus-key combination — in particular a plus-combo in which every
part fails to resolve as modifier, special key, or single-character keycode
— is emitted as the original bracketed substring, braces included, as one
literal write with no key-send emission. -/
theorem brace_unresolved_literal {s : List Char} {i j : Nat}
    (h2 : s[i + 1]? ≠ some lb) (h3 : s[i]? = some lb)
    (hfc : findClose s i = some j)
    (h : resolvesNone (upChars (slice s (i + 1) j)) = true) :
    macroNext s i = (j + 1, [Emit.write (slice s i (j + 1))]) := by
  rw [macroNext_brace_some h2 h3 hfc, braceEmit_unresolved h]

/-- Witness for C8: the unknown token of `play` applied to the bracketed
word NOPE round-trips literally, and so does a combo in which every part
fails to resolve. -/
theorem brace_unresolved_literal_witness :
    macroNext exNope 0 = (6, [Emit.write exNope]) ∧
    macroNext exCombo 0 = (9, [Emit.write exCombo]) ∧
    playChars exNope = [Emit.write exNope] :=
  ⟨brace_unresolved_literal (by decide) (by decide) (by decide) (by decide),
   brace_unresolved_literal (by decide) (by decide) (by decide) (by decide),
   by decide⟩

theorem tick_fire {cfg : Config} {s : KState} {x : TickIn}
    (hka : s.keepAliveActive = false) (hlev : s.lastButtonState = true)
    (hbtn : x.btn = true) (hcc : s.clickCount = 2)
    (hgap : x.now - s.lastClickTime > cfg.doublePressGap) :
    tick cfg s x =
      ({ s with clickCount := 0 },
       [KAct.logDoublePress, KAct.play cfg.macroText, KAct.flash cfg.macroColor,
        KAct.sleepA (1 / 100)]) := by
  simp [tick, breathePhase, gesturePhase, longPhase, doublePhase, kaPhase,
    hka, hbtn, hlev, hcc, hgap]

theorem tick_fire_held {cfg : Config} {s : KState} {x : TickIn}
    (hka : s.keepAliveActive = false) (hlev : s.lastButtonState = false)
    (hbtn : x.btn = false) (hcc : s.clickCount = 2)
    (hgap : x.now - s.lastClickTime > cfg.doublePressGap)
    (hnl : ¬(cfg.longPressDuration ≤ x.now - s.pressStartTime)) :
    tick cfg s x =
      ({ s with clickCount := 0 },
       [KAct.logDoublePress, KAct.play cfg.macroText, KAct.flash cfg.macroColor,
        KAct.sleepA (1 / 100)]) := by
  simp [tick, breathePhase, gesturePhase, longPhase, doublePhase, kaPhase,
    hka, hbtn, hlev, hcc, hgap, hnl]

/-- Claim C7 counterexample: the ramp-down loop of `color_flash` runs
`range(steps, -1, -1)`, which is 21 steps, not 20; and the ramp-up loop
peaks at scale 0.76, not 0.8. -/
theorem flash_down_not_twenty :
    flashLevelsDown.length = 21 ∧ flashLevelsDown.length ≠ 20 ∧
    flashLevels[19]? = some (19 / 25) ∧ ((19 / 25 : ℚ) ≠ 4 / 5) := by
  have hlen : flashLevelsDown.length = 21 := by
    unfold flashLevelsDown
    rw [List.length_map, List.length_range]
  have h19 : flashLevels[19]? = some (19 / 25 : ℚ) := by
    unfold flashLevels
    rw [List.getElem?_map, List.getElem?_range (by norm_num)]
    simp only [Option.map_some', Option.some.injEq]
    norm_num
  exact ⟨hlen, by omega, h19, by norm_num⟩

/-- Claim C7 amended: the flash effect performs exactly 20 linear steps
ramping the brightness scale from 0 toward 0.8 (peaking at 0.76), then
exactly 21 steps ramping from 0.8 back down to 0, then turns the LED off;
and on a double-click timeout tick the loop plays the macro and then runs
the flash with the configured macro color. -/
theorem flash_steps (cfg : Config) (s : KState) (x : TickIn)
    (hka : s.keepAliveActive = false) (hlev : s.lastButtonState = true)
    (hbtn : x.btn = true) (hcc : s.clickCount = 2)
    (hgap : x.now - s.lastClickTime > cfg.doublePressGap) :
    (tick cfg s x).2 =
      [KAct.logDoublePress, KAct.play cfg.macroText, KAct.flash cfg.macroColor,
       KAct.sleepA (1 / 100)] ∧
    flashLevels.length = 20 ∧ flashLevels[0]? = some 0 ∧
    flashLevels[19]? = some (19 / 25) ∧
    flashLevelsDown.length = 21 ∧ flashLevelsDown[0]? = some (4 / 5) ∧
    flashLevelsDown[20]? = some 0 ∧
    colorFlash cfg.macroColor =
      (flashLevels.map (flashStep cfg.macroColor)).flatten ++
        (flashLevelsDown.map (flashStep cfg.macroColor)).flatten ++
        [KAct.ledFill (0, 0, 0), KAct.ledShow] := by
  refine ⟨?_, ?_, ?_, ?_, ?_, ?_, ?_, rfl⟩
  · rw [tick_fire hka hlev hbtn hcc hgap]
  · unfold flashLevels
    rw [List.length_map, List.length_range]
  · unfold flashLevels
    rw [List.getElem?_map, List.getElem?_range (by norm_num)]
    simp only [Option.map_some', Option.some.injEq]
    norm_num
  · unfold flashLevels
    rw [List.getElem?_map, List.getElem?_range (by norm_num)]
    simp only [Option.map_some', Option.some.injEq]
    norm_num
  · unfold flashLevelsDown
    rw [List.length_map, List.length_range]
  · unfold flashLevelsDown
    rw [List.getElem?_map, List.getElem?_range (by norm_num)]
    simp only [Option.map_some', Option.some.injEq]
    norm_num
  · unfold flashLevelsDown
    rw [List.getElem?_map, List.getElem?_range (by norm_num)]
    simp only [Option.map_some', Option.some.injEq]
    norm_num

/-- Witness for the amended C7 at a concrete pending-double-click state. -/
theorem flash_steps_witness :
    (tick cfgDefault exFireState exFireIn).2 =
      [KAct.logDoublePress, KAct.play cfgDefault.macroText,
       KAct.flash cfgDefault.macroColor, KAct.sleepA (1 / 100)] ∧
    flashLevels.length = 20 :=
  ⟨(flash_steps cfgDefault exFireState exFireIn rfl rfl rfl rfl
      (by norm_num [exFireIn, exFireState, cfgDefault])).1,
   (flash_steps cfgDefault exFireState exFireIn rfl rfl rfl rfl
      (by norm_num [exFireIn, exFireState, cfgDefault])).2.1⟩

theorem breatheInv_step : ∀ p : ℤ × ℤ, breatheInv p → breatheInv (breatheNext p) := by
  rintro ⟨b, d⟩ ⟨h0, h127, hd⟩
  simp only [breatheInv, breatheNext] at *
  split_ifs with hge hle <;> simp_all <;> omega

theorem breatheIter_inv (n : Nat) : breatheInv (breatheIter n) := by
  induction n with
  | zero => exact ⟨by decide, by decide, Or.inl (by decide)⟩
  | succ n ih => exact breatheInv_step _ ih

/-- Claim C9: starting from brightness 0 and direction +1, after any number
of breathe updates the stored brightness stays within [0, 127]; and on any
update the direction flips to −1 exactly when the new brightness reaches
127, and flips to +1 exactly when it reaches 0. -/
theorem breathe_bounds (n : Nat) :
    0 ≤ (breatheIter n).1 ∧ (breatheIter n).1 ≤ 127 ∧
    (((breatheNext (breatheIter n)).2 = -1 ∧ (breatheIter n).2 = 1) ↔
      (breatheNext (breatheIter n)).1 = 127) ∧
    (((breatheNext (breatheIter n)).2 = 1 ∧ (breatheIter n).2 = -1) ↔
      (breatheNext (breatheIter n)).1 = 0) := by
  have hI := breatheIter_inv n
  rcases hp : breatheIter n with ⟨b, d⟩
  rw [hp] at hI
  obtain ⟨h0, h127, hd⟩ := hI
  simp only [breatheNext] at *
  split_ifs with hge hle <;> simp_all <;> omega

theorem setLast_eq_self {s : KState} {b : Bool} (h : s.lastButtonState = b) :
    { s with lastButtonState := b } = s := by
  cases s
  cases h
  rfl

theorem run_append_fst (cfg : Config) (l1 l2 : List TickIn) :
    ∀ s, (run cfg s (l1 ++ l2)).1 = (run cfg (run cfg s l1).1 l2).1 := by
  induction l1 with
  | nil => intro s; rfl
  | cons x xs ih => intro s; simp only [List.cons_append, run]; exact ih _

theorem run_append_snd (cfg : Config) (l1 l2 : List TickIn) :
    ∀ s, (run cfg s (l1 ++ l2)).2 =
      (run cfg s l1).2 ++ (run cfg (run cfg s l1).1 l2).2 := by
  induction l1 with
  | nil => intro s; rfl
  | cons x xs ih =>
    intro s
    simp only [List.cons_append, run, List.append_eq]
    rw [ih]
    simp [List.append_assoc]

theorem countPlay_append (a b : List KAct) :
    countPlay (a ++ b) = countPlay a + countPlay b := List.countP_append ..

theorem countLong_append (a b : List KAct) :
    countLong (a ++ b) = countLong a + countLong b := List.countP_append ..

theorem noPressEdge_of_true : ∀ (l : List TickIn), (∀ x ∈ l, x.btn = true) →
    ∀ b, noPressEdge b l = true := by
  intro l
  induction l with
  | nil => intro _ b; rfl
  | cons x xs ih =>
    intro h b
    simp only [noPressEdge, Bool.and_eq_true]
    refine ⟨?_, ih (fun y hy => h y (List.mem_cons_of_mem x hy)) x.btn⟩
    rw [h x (List.mem_cons_self x xs)]
    simp

theorem lastLevel_of_true : ∀ (l : List TickIn), (∀ x ∈ l, x.btn = true) →
    lastLevel l true = true := by
  intro l
  induction l with
  | nil => intro _; rfl
  | cons x xs ih =>
    intro h
    show lastLevel xs x.btn = true
    rw [h x (List.mem_cons_self x xs)]
    exact ih fun y hy => h y (List.mem_cons_of_mem x hy)

theorem tick_press {cfg : Config} {s : KState} {x : TickIn}
    (hka : s.keepAliveActive = false) (hlev : s.lastButtonState = true)
    (hbtn : x.btn = false) (hgap : 0 < cfg.doublePressGap)
    (hlong : 0 < cfg.longPressDuration) :
    tick cfg s x =
      ({ s with lastButtonState := false, pressStartTime := x.now,
                clickCount := s.clickCount + 1, lastClickTime := x.now },
       [KAct.logPressed, KAct.sleepA (1 / 100)]) := by
  simp [tick, breathePhase, gesturePhase, longPhase, doublePhase, kaPhase,
    hka, hbtn, hlev, sub_self, hlong.not_le, hgap.asymm]

theorem tick_quiet {cfg : Config} {s : KState} {x : TickIn}
    (hka : s.keepAliveActive = false)
    (hedge : ¬(s.lastButtonState = true ∧ x.btn = false))
    (hdc : ¬(0 < s.clickCount ∧ cfg.doublePressGap < x.now - s.lastClickTime))
    (hlp : x.btn = false →
      ¬(0 < s.pressStartTime ∧ cfg.longPressDuration ≤ x.now - s.pressStartTime)) :
    (tick cfg s x).1 = { s with lastButtonState := x.btn } ∧
    countPlay (tick cfg s x).2 = 0 ∧ countLong (tick cfg s x).2 = 0 := by
  cases hb1 : s.lastButtonState <;> cases hb2 : x.btn
  · have hl2 := hlp hb2
    simp [tick, breathePhase, gesturePhase, longPhase, doublePhase, kaPhase,
      hka, hb1, hb2, hdc, hl2, countPlay, countLong, isPlay, isLongLog]
    apply KState.ext <;> simp [hb1, hka]
  · simp [tick, breathePhase, gesturePhase, longPhase, doublePhase, kaPhase,
      hka, hb1, hb2, hdc, countPlay, countLong, isPlay, isLongLog]
  · exact absurd ⟨hb1, hb2⟩ hedge
  · simp [tick, breathePhase, gesturePhase, longPhase, doublePhase, kaPhase,
      hka, hb1, hb2, hdc, countPlay, countLong, isPlay, isLongLog]
    apply KState.ext <;> simp [hb1, hka]

theorem run_noEdge (cfg : Config) :
    ∀ (l : List TickIn) (s : KState),
      s.keepAliveActive = false →
      noPressEdge s.lastButtonState l = true →
      (∀ x ∈ l,
        ¬(0 < s.clickCount ∧ cfg.doublePressGap < x.now - s.lastClickTime) ∧
        (x.btn = false →
          ¬(0 < s.pressStartTime ∧ cfg.longPressDuration ≤ x.now - s.pressStartTime))) →
      (run cfg s l).1 = { s with lastButtonState := lastLevel l s.lastButtonState } ∧
      countPlay (run cfg s l).2 = 0 ∧ countLong (run cfg s l).2 = 0 := by
  intro l
  induction l with
  | nil =>
    intro s hka _ _
    exact ⟨(setLast_eq_self rfl).symm, rfl, rfl⟩
  | cons x xs ih =>
    intro s hka hne ht
    have hne1 : ¬(s.lastButtonState = true ∧ x.btn = false) := by
      intro ⟨h1, h2⟩
      rw [noPressEdge, Bool.and_eq_true] at hne
      rw [h1, h2] at hne
      simp at hne
    have hq := tick_quiet hka hne1 (ht x (List.mem_cons_self x xs)).1
      (ht x (List.mem_cons_self x xs)).2
    have hrest := ih (tick cfg s x).1 (by rw [hq.1]; exact hka)
      (by
        rw [hq.1]
        rw [noPressEdge, Bool.and_eq_true] at hne
        exact hne.2)
      (by
        rw [hq.1]
        intro y hy
        exact ht y (List.mem_cons_of_mem x hy))
    refine ⟨?_, ?_, ?_⟩
    · show (run cfg (tick cfg s x).1 xs).1 = _
      rw [hrest.1, hq.1]
      rfl
    · show countPlay ((tick cfg s x).2 ++ (run cfg (tick cfg s x).1 xs).2) = 0
      rw [countPlay_append, hq.2.1, hrest.2.1]
    · show countLong ((tick cfg s x).2 ++ (run cfg (tick cfg s x).1 xs).2) = 0
      rw [countLong_append, hq.2.2, hrest.2.2]

theorem tick_longFire {cfg : Config} {s : KState} {x : TickIn}
    (hka : s.keepAliveActive = false) (hlev : s.lastButtonState = false)
    (hbtn : x.btn = false) (hps : 0 < s.pressStartTime)
    (hlt : cfg.longPressDuration ≤ x.now - s.pressStartTime) (hr : 0 ≤ x.r1) :
    tick cfg s x =
      ({ s with keepAliveActive := true, lastKeepAliveTime := x.now,
                nextKeepAliveDelay := x.r1, clickCount := 0, pressStartTime := 0 },
       [KAct.logLongPress, KAct.sleepA (1 / 100)]) := by
  simp [tick, breathePhase, gesturePhase, longPhase, doublePhase, kaPhase,
    hka, hbtn, hlev, hps, hlt, sub_self, hr.not_lt]

theorem tick_cancel {cfg : Config} {s : KState} {x : TickIn}
    (hka : s.keepAliveActive = true) (hlev : s.lastButtonState = true)
    (hbtn : x.btn = false) (hcc : s.clickCount = 0)
    (hl : 0 < cfg.longPressDuration) :
    tick cfg s x =
      ({ s with lastButtonState := false, pressStartTime := x.now, keepAliveActive := false,
                breatheB := (breatheNext (s.breatheB, s.breatheD)).1,
                breatheD := (breatheNext (s.breatheB, s.breatheD)).2 },
       [KAct.ledFill (scaleColor cfg.keepaliveColor
          (((breatheNext (s.breatheB, s.breatheD)).1 : ℚ) / 255)),
        KAct.ledShow, KAct.logPressed, KAct.logExitKeepAlive, KAct.pulse cfg.cancelColor,
        KAct.ledFill (0, 0, 0), KAct.ledShow, KAct.sleepA (1 / 100)]) := by
  simp [tick, breathePhase, gesturePhase, longPhase, doublePhase, kaPhase,
    hka, hbtn, hlev, hcc, sub_self, hl.not_le]

theorem tick_cancelLe {cfg : Config} {s : KState} {x : TickIn}
    (hka : s.keepAliveActive = true) (hlev : s.lastButtonState = true)
    (hbtn : x.btn = false) (hl : 0 < cfg.longPressDuration) :
    (tick cfg s x).1.keepAliveActive = false ∧
    (tick cfg s x).1.clickCount ≤ s.clickCount ∧
    (tick cfg s x).1.lastButtonState = false := by
  by_cases hd : 0 < s.clickCount ∧ cfg.doublePressGap < x.now - s.lastClickTime
  · by_cases h2 : s.clickCount = 2
    · simp [tick, breathePhase, gesturePhase, longPhase, doublePhase, kaPhase,
        hka, hbtn, hlev, hd, h2, sub_self, hl.not_le]
    · simp [tick, breathePhase, gesturePhase, longPhase, doublePhase, kaPhase,
        hka, hbtn, hlev, hd, h2, sub_self, hl.not_le]
  · simp [tick, breathePhase, gesturePhase, longPhase, doublePhase, kaPhase,
      hka, hbtn, hlev, hd, sub_self, hl.not_le]

theorem tick_heldKA {cfg : Config} {s : KState} {x : TickIn}
    (hka : s.keepAliveActive = true) (hlev : s.lastButtonState = false)
    (hbtn : x.btn = false) (hcc : s.clickCount = 0) :
    (tick cfg s x).1.keepAliveActive = true ∧
    (tick cfg s x).1.lastButtonState = false ∧
    (tick cfg s x).1.clickCount = 0 ∧
    (tick cfg s x).1.pressStartTime = s.pressStartTime ∧
    countLong (tick cfg s x).2 = 0 := by
  by_cases hf : s.nextKeepAliveDelay < x.now - s.lastKeepAliveTime
  · simp [tick, breathePhase, gesturePhase, longPhase, doublePhase, kaPhase,
      hka, hbtn, hlev, hcc, hf, countLong, isLongLog]
  · simp [tick, breathePhase, gesturePhase, longPhase, doublePhase, kaPhase,
      hka, hbtn, hlev, hcc, hf, countLong, isLongLog]

theorem tick_heldPre {cfg : Config} {s : KState} {x : TickIn}
    (hka : s.keepAliveActive = false) (hlev : s.lastButtonState = false)
    (hbtn : x.btn = false)
    (hnl : ¬(cfg.longPressDuration ≤ x.now - s.pressStartTime)) :
    (tick cfg s x).1.keepAliveActive = false ∧
    (tick cfg s x).1.lastButtonState = false ∧
    (tick cfg s x).1.pressStartTime = s.pressStartTime ∧
    countLong (tick cfg s x).2 = 0 := by
  by_cases hd : 0 < s.clickCount ∧ cfg.doublePressGap < x.now - s.lastClickTime
  · by_cases h2 : s.clickCount = 2
    · simp [tick, breathePhase, gesturePhase, longPhase, doublePhase, kaPhase,
        hka, hbtn, hlev, hd, h2, hnl, countLong, isLongLog]
    · simp [tick, breathePhase, gesturePhase, longPhase, doublePhase, kaPhase,
        hka, hbtn, hlev, hd, h2, hnl, countLong, isLongLog]
  · simp [tick, breathePhase, gesturePhase, longPhase, doublePhase, kaPhase,
      hka, hbtn, hlev, hd, hnl, countLong, isLongLog]

theorem tick_cc_le (cfg : Config) (s : KState) (x : TickIn) :
    (tick cfg s x).1.clickCount ≤ s.clickCount +
      (if s.lastButtonState && !x.btn then 1 else 0) ∧
    (tick cfg s x).1.lastButtonState = x.btn := by
  obtain ⟨lB, pst, cc, lct, ka, lkt, nkd, bb, bd⟩ := s
  obtain ⟨now, btn, r1, r2⟩ := x
  cases lB <;> cases btn <;> cases ka <;>
    simp [tick, breathePhase, gesturePhase, longPhase, doublePhase, kaPhase] <;>
    split_ifs <;> (try simp_all) <;> omega

theorem run_heldPre (cfg : Config) :
    ∀ (l : List TickIn) (s : KState),
      s.keepAliveActive = false → s.lastButtonState = false →
      (∀ x ∈ l, x.btn = false ∧ ¬(cfg.longPressDuration ≤ x.now - s.pressStartTime)) →
      (run cfg s l).1.keepAliveActive = false ∧
      (run cfg s l).1.lastButtonState = false ∧
      (run cfg s l).1.pressStartTime = s.pressStartTime ∧
      countLong (run cfg s l).2 = 0 := by
  intro l
  induction l with
  | nil => intro s hka hlev _; exact ⟨hka, hlev, rfl, rfl⟩
  | cons x xs ih =>
    intro s hka hlev ht
    have hx := ht x (List.mem_cons_self x xs)
    have hq := tick_heldPre hka hlev hx.1 hx.2
    have hrest := ih (tick cfg s x).1 hq.1 hq.2.1 (by
      intro y hy
      refine ⟨(ht y (List.mem_cons_of_mem x hy)).1, ?_⟩
      rw [hq.2.2.1]
      exact (ht y (List.mem_cons_of_mem x hy)).2)
    refine ⟨hrest.1, hrest.2.1, ?_, ?_⟩
    · show (run cfg (tick cfg s x).1 xs).1.pressStartTime = _
      rw [hrest.2.2.1, hq.2.2.1]
    · show countLong ((tick cfg s x).2 ++ (run cfg (tick cfg s x).1 xs).2) = 0
      rw [countLong_append, hq.2.2.2, hrest.2.2.2]

theorem run_heldKA (cfg : Config) :
    ∀ (l : List TickIn) (s : KState),
      s.keepAliveActive = true → s.lastButtonState = false → s.clickCount = 0 →
      (∀ x ∈ l, x.btn = false) →
      (run cfg s l).1.keepAliveActive = true ∧
      (run cfg s l).1.lastButtonState = false ∧
      (run cfg s l).1.clickCount = 0 ∧
      (run cfg s l).1.pressStartTime = s.pressStartTime ∧
      countLong (run cfg s l).2 = 0 := by
  intro l
  induction l with
  | nil => intro s hka hlev hcc _; exact ⟨hka, hlev, hcc, rfl, rfl⟩
  | cons x xs ih =>
    intro s hka hlev hcc ht
    have hq := @tick_heldKA cfg s x hka hlev (ht x (List.mem_cons_self x xs)) hcc
    have hrest := ih (tick cfg s x).1 hq.1 hq.2.1 hq.2.2.1
      (fun y hy => ht y (List.mem_cons_of_mem x hy))
    refine ⟨hrest.1, hrest.2.1, hrest.2.2.1, ?_, ?_⟩
    · show (run cfg (tick cfg s x).1 xs).1.pressStartTime = _
      rw [hrest.2.2.2.1, hq.2.2.2.1]
    · show countLong ((tick cfg s x).2 ++ (run cfg (tick cfg s x).1 xs).2) = 0
      rw [countLong_append, hq.2.2.2.2, hrest.2.2.2.2]

theorem run_cc_le (cfg : Config) :
    ∀ (l : List TickIn) (s : KState),
      (run cfg s l).1.clickCount ≤ s.clickCount + countPressEdges s.lastButtonState l ∧
      (run cfg s l).1.lastButtonState = lastLevel l s.lastButtonState := by
  intro l
  induction l with
  | nil => intro s; exact ⟨Nat.le_refl _, rfl⟩
  | cons x xs ih =>
    intro s
    have h1 := tick_cc_le cfg s x
    have h2 := ih (tick cfg s x).1
    constructor
    · have ha := h2.1
      rw [h1.2] at ha
      have hb := h1.1
      show (run cfg (tick cfg s x).1 xs).1.clickCount ≤
        s.clickCount + countPressEdges s.lastButtonState (x :: xs)
      simp only [countPressEdges]
      omega
    · show (run cfg (tick cfg s x).1 xs).1.lastButtonState = _
      rw [h2.2, h1.2]
      rfl

theorem run_ccFalse (cfg : Config) :
    ∀ (l : List TickIn) (s : KState),
      s.lastButtonState = false → (∀ y ∈ l, y.btn = false) →
      (run cfg s l).1.clickCount ≤ s.clickCount ∧
      (run cfg s l).1.lastButtonState = false := by
  intro l
  induction l with
  | nil => intro s _ _; exact ⟨Nat.le_refl _, by assumption⟩
  | cons x xs ih =>
    intro s hlev ht
    have h1 := tick_cc_le cfg s x
    rw [hlev] at h1
    simp only [Bool.false_and, if_neg (by simp : ¬(false = true))] at h1
    have hrest := ih (tick cfg s x).1
      (by rw [h1.2]; exact ht x (List.mem_cons_self x xs))
      (fun y hy => ht y (List.mem_cons_of_mem x hy))
    refine ⟨?_, hrest.2⟩
    show (run cfg (tick cfg s x).1 xs).1.clickCount ≤ s.clickCount
    calc (run cfg (tick cfg s x).1 xs).1.clickCount ≤ (tick cfg s x).1.clickCount := hrest.1
      _ ≤ s.clickCount := by omega

/-- Claim C3: a press edge while keep-alive is active deactivates
keep-alive in that tick and does not increment `click_count`; and however
long that cancelling press is then held (any further all-pressed inputs),
`click_count` is never incremented. -/
theorem cancel_priority (cfg : Config) (s : KState) (x : TickIn)
    (hl : 0 < cfg.longPressDuration)
    (hka : s.keepAliveActive = true) (hlev : s.lastButtonState = true)
    (hbtn : x.btn = false) :
    (tick cfg s x).1.keepAliveActive = false ∧
    (tick cfg s x).1.clickCount ≤ s.clickCount ∧
    ∀ l, (∀ y ∈ l, y.btn = false) →
      (run cfg (tick cfg s x).1 l).1.clickCount ≤ s.clickCount := by
  have h := tick_cancelLe hka hlev hbtn hl
  refine ⟨h.1, h.2.1, ?_⟩
  intro l hlb
  have hr := run_ccFalse cfg l (tick cfg s x).1 h.2.2 hlb
  exact le_trans hr.1 h.2.1

/-- Witness for C3 at a concrete keep-alive state, with the cancelling
press held for one further tick. -/
theorem cancel_priority_witness :
    (tick cfgDefault exKaState exCancelIn).1.keepAliveActive = false ∧
    (tick cfgDefault exKaState exCancelIn).1.clickCount ≤ exKaState.clickCount ∧
    (run cfgDefault (tick cfgDefault exKaState exCancelIn).1
      [⟨11, false, 0, 0⟩]).1.clickCount ≤ exKaState.clickCount := by
  have h := cancel_priority cfgDefault exKaState exCancelIn
    (by norm_num [cfgDefault]) rfl rfl rfl
  refine ⟨h.1, h.2.1, h.2.2 [⟨11, false, 0, 0⟩] ?_⟩
  intro y hy
  simp at hy
  rw [hy]

/-- Claim C5 counterexample: three rapid presses, each within the default
double-press gap of the previous click, drive `click_count` to 3, outside
the claimed range {0, 1, 2}. -/
theorem clickCount_three :
    (run cfgDefault initState exTriple).1.clickCount = 3 ∧ ¬(3 ≤ 2) := by
  constructor
  · norm_num [run, tick, breathePhase, gesturePhase, longPhase, doublePhase, kaPhase,
      cfgDefault, initState, exTriple]
  · omega

/-- Claim C5 amended: `click_count` is a nonnegative counter that is only
bounded by the number of press edges fed to the loop so far (it exceeds 2
whenever more than two press edges land inside the double-press window,
and is reset to 0 by the timeout, long-press and keep-alive paths). -/
theorem clickCount_le_pressEdges (cfg : Config) (l : List TickIn) :
    (run cfg initState l).1.clickCount ≤ countPressEdges true l := by
  have h := (run_cc_le cfg l initState).1
  simpa [initState] using h

/-- Claim C4: a press followed by a continuous hold activates keep-alive
exactly once: no activation while the hold is below `longPressDuration`,
activation on the first sampled tick at or past it (which zeroes
`press_start_time`), and no further activation while the same hold
continues, however long. -/
theorem long_press_once (cfg : Config) (s : KState) (p f : TickIn)
    (pre post : List TickIn)
    (hg : 0 < cfg.doublePressGap) (hl : 0 < cfg.longPressDuration)
    (hka : s.keepAliveActive = false) (hlev : s.lastButtonState = true)
    (hp : p.btn = false) (hpnow : 0 < p.now)
    (hpre : ∀ x ∈ pre, x.btn = false ∧ x.now - p.now < cfg.longPressDuration)
    (hf : f.btn = false) (hft : cfg.longPressDuration ≤ f.now - p.now) (hfr : 0 ≤ f.r1)
    (hpost : ∀ x ∈ post, x.btn = false) :
    countLong (run cfg s (p :: (pre ++ f :: post))).2 = 1 ∧
    (run cfg s (p :: (pre ++ f :: post))).1.keepAliveActive = true ∧
    (run cfg s (p :: (pre ++ f :: post))).1.pressStartTime = 0 := by
  have e1 := @tick_press cfg s p hka hlev hp hg hl
  have hPre := run_heldPre cfg pre { s with lastButtonState := false, pressStartTime := p.now, clickCount := s.clickCount + 1, lastClickTime := p.now } hka rfl (fun x hx => ⟨(hpre x hx).1, not_le.mpr (hpre x hx).2⟩)
  have hfire := @tick_longFire cfg (run cfg { s with lastButtonState := false, pressStartTime := p.now, clickCount := s.clickCount + 1, lastClickTime := p.now } pre).1 f hPre.1 hPre.2.1 hf (by rw [hPre.2.2.1]; exact hpnow) (by rw [hPre.2.2.1]; exact hft) hfr
  have hPost := run_heldKA cfg post { (run cfg { s with lastButtonState := false, pressStartTime := p.now, clickCount := s.clickCount + 1, lastClickTime := p.now } pre).1 with keepAliveActive := true, lastKeepAliveTime := f.now, nextKeepAliveDelay := f.r1, clickCount := 0, pressStartTime := 0 } rfl hPre.2.1 rfl hpost
  dsimp only at hPost
  refine ⟨?_, ?_, ?_⟩
  · show countLong ((tick cfg s p).2 ++
      (run cfg (tick cfg s p).1 (pre ++ f :: post)).2) = 1
    rw [e1]
    dsimp only
    rw [run_append_snd]
    simp only [run]
    rw [hfire]
    dsimp only
    rw [countLong_append, countLong_append, countLong_append, hPre.2.2.2, hPost.2.2.2.2]
    simp [countLong, List.countP_cons, isLongLog]
  · show (run cfg (tick cfg s p).1 (pre ++ f :: post)).1.keepAliveActive = true
    rw [e1]
    dsimp only
    rw [run_append_fst]
    simp only [run]
    rw [hfire]
    dsimp only
    exact hPost.1
  · show (run cfg (tick cfg s p).1 (pre ++ f :: post)).1.pressStartTime = 0
    rw [e1]
    dsimp only
    rw [run_append_fst]
    simp only [run]
    rw [hfire]
    dsimp only
    rw [hPost.2.2.2.1]

/-- Witness for C4: a press at time 1 held through time 2 with the default
one-second threshold. -/
theorem long_press_once_witness :
    countLong (run cfgDefault initState
      [⟨1, false, 0, 0⟩, ⟨2, false, 0, 0⟩]).2 = 1 ∧
    (run cfgDefault initState
      [⟨1, false, 0, 0⟩, ⟨2, false, 0, 0⟩]).1.keepAliveActive = true ∧
    (run cfgDefault initState
      [⟨1, false, 0, 0⟩, ⟨2, false, 0, 0⟩]).1.pressStartTime = 0 :=
  long_press_once cfgDefault initState ⟨1, false, 0, 0⟩ ⟨2, false, 0, 0⟩ [] []
    (by norm_num [cfgDefault]) (by norm_num [cfgDefault]) rfl rfl rfl
    (by norm_num) (fun x hx => absurd hx (List.not_mem_nil x)) rfl
    (by norm_num [cfgDefault]) (le_refl 0)
    (fun x hx => absurd hx (List.not_mem_nil x))

/-- Claim C10: a press edge that cancels keep-alive still records the
press start time, so if that same press is then held to
`longPressDuration` the long-press branch fires again and keep-alive is
re-activated during the same hold. -/
theorem cancel_records_press (cfg : Config) (s : KState) (c f : TickIn)
    (pre post : List TickIn)
    (hl : 0 < cfg.longPressDuration)
    (hka : s.keepAliveActive = true) (hlev : s.lastButtonState = true)
    (hcc : s.clickCount = 0)
    (hc : c.btn = false) (hcnow : 0 < c.now)
    (hpre : ∀ x ∈ pre, x.btn = false ∧ x.now - c.now < cfg.longPressDuration)
    (hf : f.btn = false) (hft : cfg.longPressDuration ≤ f.now - c.now) (hfr : 0 ≤ f.r1)
    (hpost : ∀ x ∈ post, x.btn = false) :
    (tick cfg s c).1.pressStartTime = c.now ∧
    (tick cfg s c).1.keepAliveActive = false ∧
    countLong (run cfg (tick cfg s c).1 (pre ++ f :: post)).2 = 1 ∧
    (run cfg (tick cfg s c).1 (pre ++ f :: post)).1.keepAliveActive = true := by
  have e1 := @tick_cancel cfg s c hka hlev hc hcc hl
  have hPre := run_heldPre cfg pre { s with lastButtonState := false, pressStartTime := c.now, keepAliveActive := false, breatheB := (breatheNext (s.breatheB, s.breatheD)).1, breatheD := (breatheNext (s.breatheB, s.breatheD)).2 } rfl rfl (fun x hx => ⟨(hpre x hx).1, not_le.mpr (hpre x hx).2⟩)
  have hfire := @tick_longFire cfg (run cfg { s with lastButtonState := false, pressStartTime := c.now, keepAliveActive := false, breatheB := (breatheNext (s.breatheB, s.breatheD)).1, breatheD := (breatheNext (s.breatheB, s.breatheD)).2 } pre).1 f hPre.1 hPre.2.1 hf (by rw [hPre.2.2.1]; exact hcnow) (by rw [hPre.2.2.1]; exact hft) hfr
  have hPost := run_heldKA cfg post { (run cfg { s with lastButtonState := false, pressStartTime := c.now, keepAliveActive := false, breatheB := (breatheNext (s.breatheB, s.breatheD)).1, breatheD := (breatheNext (s.breatheB, s.breatheD)).2 } pre).1 with keepAliveActive := true, lastKeepAliveTime := f.now, nextKeepAliveDelay := f.r1, clickCount := 0, pressStartTime := 0 } rfl hPre.2.1 rfl hpost
  dsimp only at hPost
  refine ⟨by rw [e1], by rw [e1], ?_, ?_⟩
  · rw [e1]
    dsimp only
    rw [run_append_snd]
    simp only [run]
    rw [hfire]
    dsimp only
    rw [countLong_append, countLong_append, hPre.2.2.2, hPost.2.2.2.2]
    simp [countLong, List.countP_cons, isLongLog]
  · rw [e1]
    dsimp only
    rw [run_append_fst]
    simp only [run]
    rw [hfire]
    dsimp only
    exact hPost.1

/-- Witness for C10: cancel at time 10, hold through time 11. -/
theorem cancel_records_press_witness :
    (tick cfgDefault exKaState exCancelIn).1.pressStartTime = 10 ∧
    (tick cfgDefault exKaState exCancelIn).1.keepAliveActive = false ∧
    countLong (run cfgDefault (tick cfgDefault exKaState exCancelIn).1
      [⟨11, false, 0, 0⟩]).2 = 1 ∧
    (run cfgDefault (tick cfgDefault exKaState exCancelIn).1
      [⟨11, false, 0, 0⟩]).1.keepAliveActive = true :=
  cancel_records_press cfgDefault exKaState exCancelIn ⟨11, false, 0, 0⟩ [] []
    (by norm_num [cfgDefault]) rfl rfl rfl rfl (by norm_num [exCancelIn])
    (fun x hx => absurd hx (List.not_mem_nil x)) rfl
    (by norm_num [cfgDefault, exCancelIn]) (le_refl 0)
    (fun x hx => absurd hx (List.not_mem_nil x))

/-- Claim C6 counterexample: on a concrete cancel tick the trace begins
with the breathe LED update, computed from the pre-cancel keep-alive flag,
before the gesture dispatch — although keep-alive is inactive by the end
of the tick, when the claimed order (dispatch, then breathe only if
keep-alive is active) would have produced no breathe update at all. -/
theorem breathe_first_cx :
    (tick cfgDefault exKaState exCancelIn).2 =
      [KAct.ledFill (1, 2, 0), KAct.ledShow, KAct.logPressed, KAct.logExitKeepAlive,
       KAct.pulse (0, 255, 0), KAct.ledFill (0, 0, 0), KAct.ledShow,
       KAct.sleepA (1 / 100)] ∧
    (tick cfgDefault exKaState exCancelIn).1.keepAliveActive = false := by
  have h := @tick_cancel cfgDefault exKaState exCancelIn rfl rfl rfl rfl
    (by norm_num [cfgDefault])
  rw [h]
  refine ⟨?_, rfl⟩
  have hb : breatheNext (exKaState.breatheB, exKaState.breatheD) = (2, 1) := by
    norm_num [breatheNext, exKaState]
  rw [hb]
  have hc : scaleColor cfgDefault.keepaliveColor (((2 : ℤ) : ℚ) / 255) = (1, 2, 0) := by
    norm_num [scaleColor, pyInt, cfgDefault]
    decide
  rw [hc]
  rfl

/-- Claim C6 amended: within a tick the loop samples, then — if keep-alive
was active at the start of the tick — advances the breathe LED, then runs
gesture detection and dispatch, then the long-press check, then the
double-press check, then the keep-alive fire check, then sleeps.  On a
cancelling press tick this means the breathe LED ops precede the cancel
dispatch and still occur although keep-alive ends the tick inactive. -/
theorem tick_breathe_first (cfg : Config) (s : KState) (x : TickIn)
    (hka : s.keepAliveActive = true) (hlev : s.lastButtonState = true)
    (hbtn : x.btn = false) (hcc : s.clickCount = 0)
    (hl : 0 < cfg.longPressDuration) :
    (tick cfg s x).2 =
      [KAct.ledFill (scaleColor cfg.keepaliveColor
         (((breatheNext (s.breatheB, s.breatheD)).1 : ℚ) / 255)),
       KAct.ledShow, KAct.logPressed, KAct.logExitKeepAlive, KAct.pulse cfg.cancelColor,
       KAct.ledFill (0, 0, 0), KAct.ledShow, KAct.sleepA (1 / 100)] ∧
    (tick cfg s x).1.keepAliveActive = false := by
  rw [tick_cancel hka hlev hbtn hcc hl]
  exact ⟨rfl, rfl⟩

/-- Witness for the amended C6 at the concrete cancel tick. -/
theorem tick_breathe_first_witness :
    (tick cfgDefault exKaState exCancelIn).2 =
      [KAct.ledFill (scaleColor cfgDefault.keepaliveColor
         (((breatheNext (exKaState.breatheB, exKaState.breatheD)).1 : ℚ) / 255)),
       KAct.ledShow, KAct.logPressed, KAct.logExitKeepAlive,
       KAct.pulse cfgDefault.cancelColor, KAct.ledFill (0, 0, 0), KAct.ledShow,
       KAct.sleepA (1 / 100)] ∧
    (tick cfgDefault exKaState exCancelIn).1.keepAliveActive = false :=
  tick_breathe_first cfgDefault exKaState exCancelIn rfl rfl rfl rfl
    (by norm_num [cfgDefault])

/-- Claim C2: from the startup state, a run consisting of quiet released
ticks, a first press edge, edge-free ticks inside the double-press window,
a second press edge, further edge-free in-window ticks (released or still
held, in any timing), and a final edge-free tick past the window — with
every sampled hold below the long-press threshold, so no long press and no
third press occur — plays the macro exactly once and leaves `click_count`
at 0. -/
theorem double_click_once (cfg : Config) (A B C : List TickIn) (p1 p2 k : TickIn)
    (hg : 0 < cfg.doublePressGap) (hl : 0 < cfg.longPressDuration)
    (hA : ∀ x ∈ A, x.btn = true)
    (hp1 : p1.btn = false) (hp2 : p2.btn = false)
    (hB : noPressEdge false B = true) (hBend : lastLevel B false = true)
    (hBt : ∀ x ∈ B, x.now - p1.now ≤ cfg.doublePressGap ∧
        (x.btn = false → x.now - p1.now < cfg.longPressDuration))
    (hC : noPressEdge false C = true) (hkb : k.btn = lastLevel C false)
    (hCt : ∀ x ∈ C, x.now - p2.now ≤ cfg.doublePressGap ∧
        (x.btn = false → x.now - p2.now < cfg.longPressDuration))
    (hkl : k.btn = false → k.now - p2.now < cfg.longPressDuration)
    (hkt : cfg.doublePressGap < k.now - p2.now) :
    countPlay (run cfg initState (A ++ p1 :: (B ++ p2 :: (C ++ [k])))).2 = 1 ∧
    (run cfg initState (A ++ p1 :: (B ++ p2 :: (C ++ [k])))).1.clickCount = 0 := by
  have hArun := run_noEdge cfg A initState rfl (noPressEdge_of_true A hA true)
    (by
      intro x hx
      constructor
      · rintro ⟨h0, -⟩
        simp [initState] at h0
      · intro hfb
        rw [hA x hx] at hfb
        exact Bool.noConfusion hfb)
  have hArun1 : (run cfg initState A).1 = initState := by
    rw [hArun.1]
    have hlev : lastLevel A initState.lastButtonState = true := lastLevel_of_true A hA
    rw [hlev]
    exact setLast_eq_self rfl
  have ep1 := @tick_press cfg initState p1 rfl rfl hp1 hg hl
  have hBrun := run_noEdge cfg B { initState with lastButtonState := false, pressStartTime := p1.now, clickCount := initState.clickCount + 1, lastClickTime := p1.now } rfl hB
    (by
      intro x hx
      constructor
      · rintro ⟨-, hlt⟩
        exact absurd hlt (not_lt.mpr (hBt x hx).1)
      · rintro hfb ⟨-, hle⟩
        exact absurd hle (not_le.mpr ((hBt x hx).2 hfb)))
  have hBrun1 : (run cfg { initState with lastButtonState := false, pressStartTime := p1.now, clickCount := initState.clickCount + 1, lastClickTime := p1.now } B).1 = { initState with lastButtonState := true, pressStartTime := p1.now, clickCount := initState.clickCount + 1, lastClickTime := p1.now } := by
    rw [hBrun.1]
    have hlev2 : lastLevel B ({ initState with lastButtonState := false, pressStartTime := p1.now, clickCount := initState.clickCount + 1, lastClickTime := p1.now } : KState).lastButtonState = true := hBend
    rw [hlev2]
  have ep2 := @tick_press cfg { initState with lastButtonState := true, pressStartTime := p1.now, clickCount := initState.clickCount + 1, lastClickTime := p1.now } p2 rfl rfl hp2 hg hl
  have hCrun := run_noEdge cfg C { initState with lastButtonState := false, pressStartTime := p2.now, clickCount := initState.clickCount + 1 + 1, lastClickTime := p2.now } rfl hC
    (by
      intro x hx
      constructor
      · rintro ⟨-, hlt⟩
        exact absurd hlt (not_lt.mpr (hCt x hx).1)
      · rintro hfb ⟨-, hle⟩
        exact absurd hle (not_le.mpr ((hCt x hx).2 hfb)))
  have hCrun1 : (run cfg { initState with lastButtonState := false, pressStartTime := p2.now, clickCount := initState.clickCount + 1 + 1, lastClickTime := p2.now } C).1 = { initState with lastButtonState := lastLevel C false, pressStartTime := p2.now, clickCount := initState.clickCount + 1 + 1, lastClickTime := p2.now } := hCrun.1
  have ek : tick cfg { initState with lastButtonState := lastLevel C false, pressStartTime := p2.now, clickCount := initState.clickCount + 1 + 1, lastClickTime := p2.now } k = ({ initState with lastButtonState := lastLevel C false, pressStartTime := p2.now, clickCount := 0, lastClickTime := p2.now }, [KAct.logDoublePress, KAct.play cfg.macroText, KAct.flash cfg.macroColor, KAct.sleepA (1 / 100)]) := by
    cases hlast : lastLevel C false with
    | false =>
      rw [hlast] at hkb
      exact tick_fire_held rfl rfl hkb rfl hkt (not_le.mpr (hkl hkb))
    | true =>
      rw [hlast] at hkb
      exact tick_fire rfl rfl hkb rfl hkt
  constructor
  · rw [run_append_snd, countPlay_append, hArun.2.1, hArun1]
    simp only [run]
    rw [ep1]
    dsimp only
    rw [run_append_snd, countPlay_append, countPlay_append, hBrun.2.1, hBrun1]
    simp only [run]
    rw [ep2]
    dsimp only
    rw [run_append_snd, countPlay_append, countPlay_append, hCrun.2.1, hCrun1]
    simp only [run]
    rw [ek]
    dsimp only
    simp [countPlay, List.countP_cons, isPlay]
  · rw [run_append_fst, hArun1]
    simp only [run]
    rw [ep1]
    dsimp only
    rw [run_append_fst, hBrun1]
    simp only [run]
    rw [ep2]
    dsimp only
    rw [run_append_fst, hCrun1]
    simp only [run]
    rw [ek]

/-- Witness for C2: press at 1, release at 1.1, press at 1.2, release at
1.3, timeout check at 2, all with the default configuration. -/
theorem double_click_once_witness :
    countPlay (run cfgDefault initState
      [⟨1, false, 0, 0⟩, ⟨11 / 10, true, 0, 0⟩, ⟨6 / 5, false, 0, 0⟩,
       ⟨13 / 10, true, 0, 0⟩, ⟨2, true, 0, 0⟩]).2 = 1 ∧
    (run cfgDefault initState
      [⟨1, false, 0, 0⟩, ⟨11 / 10, true, 0, 0⟩, ⟨6 / 5, false, 0, 0⟩,
       ⟨13 / 10, true, 0, 0⟩, ⟨2, true, 0, 0⟩]).1.clickCount = 0 :=
  double_click_once cfgDefault [] [⟨11 / 10, true, 0, 0⟩] [⟨13 / 10, true, 0, 0⟩]
    ⟨1, false, 0, 0⟩ ⟨6 / 5, false, 0, 0⟩ ⟨2, true, 0, 0⟩
    (by norm_num [cfgDefault]) (by norm_num [cfgDefault])
    (fun x hx => absurd hx (List.not_mem_nil x))
    rfl rfl rfl rfl
    (by
      intro x hx
      simp at hx
      rw [hx]
      norm_num [cfgDefault])
    rfl rfl
    (by
      intro x hx
      simp at hx
      rw [hx]
      norm_num [cfgDefault])
    (fun h => nomatch h)
    (by norm_num [cfgDefault])

end PiKey
